import Mathlib

/-!
Shallow embedding of `src/transformers/run_eval.py` from the
`open_asr_leaderboard` repository: a batched speech-to-text evaluation
driver.  Audio waveforms are modelled as lists of rationals, wall-clock
times and durations as rationals (Python float arithmetic is modelled by
exact rational arithmetic), model inference and text normalisation as
abstract functions supplied by an environment, and Python exceptions as
`Except String`.
-/

set_option autoImplicit false

namespace RunEval

/-- An audio waveform: the `audio["array"]` field of a sample. -/
abbrev Audio := List ℚ

/-- A sample of the prepared dataset, as produced by `data_utils.prepare_data`.
Modelled from the spec: `data_utils` (the repository's `normalizer` package) is
not under `src/`; per the spec a sample carries the raw audio waveform, the
normalized reference text (`norm_text`) and its audio duration in seconds
(`audio_length_s`, retained into the result accumulator). -/
structure PreparedSample where
  audio : Audio
  norm_text : String
  audio_length_s : ℚ
deriving DecidableEq

/-- The preprocessing path chosen in step 1 of `benchmark`:
`rawLongest` is the `processor(..., truncation=False, padding="longest",
return_attention_mask=True)` call (CTC raw-normalization, also used for
long-form inputs of generative models); `fixed30LogMel` is the standard
`processor(audios, sampling_rate=16_000, return_tensors="pt")` call that pads
to 30 seconds and converts to log-mel. -/
inductive PrePath
  | rawLongest
  | fixed30LogMel
deriving DecidableEq, Repr

/-- The keyword arguments of the two `processor(...)` calls that matter to the
spec: `truncation`, `padding` and `return_attention_mask`. -/
structure ProcessorKwargs where
  truncation : Bool
  padding : String
  return_attention_mask : Bool
deriving DecidableEq

/-- The kwargs actually passed on each path: `rawLongest` passes
`truncation=False, padding="longest", return_attention_mask=True`;
`fixed30LogMel` uses the processor defaults (truncation on, max-length
padding to 30 s, no attention mask requested). -/
def kwargsOf : PrePath → ProcessorKwargs
  | .rawLongest => ⟨false, "longest", true⟩
  | .fixed30LogMel => ⟨true, "max_length", false⟩

/-- The branch condition of step 1 of `benchmark`:
`if not model.can_generate() or len(audios[0]) > processor.feature_extractor.n_samples`.
`audios[0]` is the first waveform of the batch (`headD []` models Python's
`audios[0]`; batches handed to `benchmark` are non-empty). -/
def choosePrePath (can_generate : Bool) (n_samples : Nat) (audios : List Audio) : PrePath :=
  if !can_generate || (audios.headD []).length > n_samples then
    .rawLongest
  else
    .fixed30LogMel

/-- The fixed context of `benchmark`: the loaded model and processor, the
normalizer, and the measured wall-clock runtime of a batch.  `infer_decode`
bundles steps 2 and 3 (model inference and `batch_decode`), returning one
transcription per batch element; `runtime` models the elapsed wall time
`time.time() - start_time` of the batch as a deterministic function of the
batch's audio. -/
structure Env where
  can_generate : Bool
  n_samples : Nat
  infer_decode : PrePath → List Audio → List String
  normalizer : String → String
  runtime : List Audio → ℚ

/-- A batch as handed to `benchmark` by the batched `dataset.map`: the
`audio` column and the `norm_text` column, index-aligned. -/
structure Batch where
  audio : List Audio
  norm_text : List String
deriving DecidableEq

/-- The three columns `benchmark` adds to a batch. -/
structure BenchOut where
  transcription_time_s : List ℚ
  predictions : List String
  references : List String
deriving DecidableEq

/-- The `benchmark` closure of `main`: chooses a preprocessing path, runs
inference and decoding, measures the batch runtime, records
`minibatch_size * [runtime / minibatch_size]` as per-sample transcription
times, normalizes each prediction and copies `norm_text` into `references`. -/
def benchmark (env : Env) (batch : Batch) : BenchOut :=
  let audios := batch.audio
  let minibatch_size := audios.length
  let path := choosePrePath env.can_generate env.n_samples audios
  let pred_text := env.infer_decode path audios
  let runtime := env.runtime audios
  { transcription_time_s := List.replicate minibatch_size (runtime / (minibatch_size : ℚ)),
    predictions := pred_text.map env.normalizer,
    references := batch.norm_text }

/-- `chunksAux b fuel l` splits `l` into consecutive pieces of `b` elements
(the last piece possibly shorter), consuming `fuel` to ensure termination. -/
def chunksAux {α : Type} (b : Nat) : Nat → List α → List (List α)
  | _, [] => []
  | 0, _ :: _ => []
  | fuel + 1, x :: xs => ((x :: xs).take b) :: chunksAux b fuel ((x :: xs).drop b)

/-- `chunks b l`: the batches of size `b` that `dataset.map(benchmark,
batch_size=b, batched=True)` feeds to `benchmark`, in dataset order. -/
def chunks {α : Type} (b : Nat) (l : List α) : List (List α) :=
  chunksAux b l.length l

/-- The batch view of a chunk of prepared samples: the `audio` and
`norm_text` columns. -/
def toBatch (c : List PreparedSample) : Batch :=
  { audio := c.map (·.audio), norm_text := c.map (·.norm_text) }

/-- One per-sample row of the mapped dataset: the four columns retained by
the accumulation loop of `main`. -/
structure SampleResult where
  audio_length_s : ℚ
  transcription_time_s : ℚ
  predictions : String
  references : String
deriving DecidableEq

/-- Re-assembles the per-sample rows of a mapped batch from the kept
`audio_length_s` column and the three columns `benchmark` produced. -/
def zip4 : List ℚ → List ℚ → List String → List String → List SampleResult
  | a :: as, t :: ts, p :: ps, r :: rs => ⟨a, t, p, r⟩ :: zip4 as ts ps rs
  | _, _, _, _ => []

/-- The rows contributed by one batch of the mapped dataset. -/
def batchSamples (env : Env) (c : List PreparedSample) : List SampleResult :=
  let out := benchmark env (toBatch c)
  zip4 (c.map (·.audio_length_s)) out.transcription_time_s out.predictions out.references

/-- The whole mapped dataset, sample by sample, in dataset iteration order:
`dataset.map(benchmark, batch_size=b, batched=True)` followed by `iter`. -/
def runSamples (env : Env) (b : Nat) (prepared : List PreparedSample) : List SampleResult :=
  (chunks b prepared).flatMap (batchSamples env)

/-- The `all_results` dictionary of `main`: four parallel lists. -/
structure AllResults where
  audio_length_s : List ℚ
  transcription_time_s : List ℚ
  predictions : List String
  references : List String
deriving DecidableEq

/-- One iteration of the accumulation loop of `main`: append each of the
four fields of one sample row to the corresponding list. -/
def appendResult (acc : AllResults) (r : SampleResult) : AllResults :=
  { audio_length_s := acc.audio_length_s ++ [r.audio_length_s],
    transcription_time_s := acc.transcription_time_s ++ [r.transcription_time_s],
    predictions := acc.predictions ++ [r.predictions],
    references := acc.references ++ [r.references] }

/-- The accumulation loop of `main`: `for result in result_iter: for key in
all_results: all_results[key].append(result[key])`, starting from four empty
lists. -/
def accumulate (samples : List SampleResult) : AllResults :=
  samples.foldl appendResult ⟨[], [], [], []⟩

/-- Python's `round` to the nearest integer with ties going to the even
integer (banker's rounding), on exact rationals. -/
def bankersRound (x : ℚ) : ℤ :=
  if x - ⌊x⌋ < 1 / 2 then ⌊x⌋
  else if 1 / 2 < x - ⌊x⌋ then ⌊x⌋ + 1
  else if ⌊x⌋ % 2 = 0 then ⌊x⌋ else ⌊x⌋ + 1

/-- Python's `round(x, 2)`. -/
def round2 (x : ℚ) : ℚ := (bankersRound (x * 100) : ℚ) / 100

/-- Python's `/` on numbers: raises `ZeroDivisionError` when the divisor is
zero. -/
def pyDiv (a b : ℚ) : Except String ℚ :=
  if b = 0 then .error "ZeroDivisionError" else .ok (a / b)

/-- The subsampling step of `main`: `if args.max_eval_samples is not None and
args.max_eval_samples > 0: dataset = dataset.take(args.max_eval_samples)`;
`dataset.take(n)` yields the first `n` samples. -/
def subsample {α : Type} (max_eval_samples : Option Int) (dataset : List α) : List α :=
  match max_eval_samples with
  | none => dataset
  | some n => if n > 0 then dataset.take n.toNat else dataset

/-- The tail of `main` after the accumulation loop, metrics only: computes
`wer = wer_metric.compute(...)` over the full accumulated lists (the WER
algorithm lives in the third-party `evaluate` library and is abstracted as
`werFn`), reports `round(100 * wer, 2)`, and computes
`rtfx = round(sum(audio_length_s) / sum(transcription_time_s), 2)`. -/
def computeMetrics (werFn : List String → List String → ℚ) (r : AllResults) :
    Except String (ℚ × ℚ) :=
  let wer := werFn r.references r.predictions
  (pyDiv r.audio_length_s.sum r.transcription_time_s.sum).map
    (fun q => (round2 (100 * wer), round2 q))

/-- The metrics of a full run over the batched, mapped dataset. -/
def runMetrics (env : Env) (werFn : List String → List String → ℚ) (b : Nat)
    (prepared : List PreparedSample) : Except String (ℚ × ℚ) :=
  computeMetrics werFn (accumulate (runSamples env b prepared))

/-- The observable outputs of `main`: the manifest file written by
`data_utils.write_manifest`, the `print("Results saved at path:", ...)`
line, and the final `print("WER:", wer, "%", "RTFx:", rtfx)` summary. -/
inductive Effect
  | wroteManifest (path : String)
  | printedPath (path : String)
  | printedSummary (wer : ℚ) (rtfx : ℚ)
deriving DecidableEq

/-- The fallible library calls `main` makes, in program order.  Each is an
`Except`: `.error e` models the call raising exception `e`.  `load_data`
covers `data_utils.load_data`, the subsampling and `prepare_data`;
`map_benchmark` covers the batched map plus dataset iteration (inference
errors surface there); `write_manifest` covers `data_utils.write_manifest`
and returns the manifest path; `wer_compute` is `wer_metric.compute`. -/
structure World where
  load_config : Except String Unit
  load_model : Except String Unit
  load_processor : Except String Unit
  load_data : Except String (List PreparedSample)
  map_benchmark : List PreparedSample → Except String (List SampleResult)
  write_manifest : AllResults → Except String String
  wer_compute : List String → List String → Except String ℚ

/-- The body of `main` as straight-line code with no exception handler:
each library call either returns a value, letting the next statement run, or
raises, in which case the exception propagates unchanged and nothing after
the raising call executes.  Returns the effects performed and `some e` when
the run aborted with exception `e`. -/
def mainRun (w : World) : List Effect × Option String :=
  match w.load_config with
  | .error e => ([], some e)
  | .ok _ =>
    match w.load_model with
    | .error e => ([], some e)
    | .ok _ =>
      match w.load_processor with
      | .error e => ([], some e)
      | .ok _ =>
        match w.load_data with
        | .error e => ([], some e)
        | .ok data =>
          match w.map_benchmark data with
          | .error e => ([], some e)
          | .ok samples =>
            let r := accumulate samples
            match w.write_manifest r with
            | .error e => ([], some e)
            | .ok path =>
              match w.wer_compute r.references r.predictions with
              | .error e => ([.wroteManifest path, .printedPath path], some e)
              | .ok wer =>
                match pyDiv r.audio_length_s.sum r.transcription_time_s.sum with
                | .error e => ([.wroteManifest path, .printedPath path], some e)
                | .ok q =>
                  ([.wroteManifest path, .printedPath path,
                    .printedSummary (round2 (100 * wer)) (round2 q)], none)

/-- The process exit status: a Python process terminated by an uncaught
exception exits with status 1, a completed `main` falls off the end with
status 0. -/
def exit_code (r : List Effect × Option String) : Nat :=
  match r.2 with
  | some _ => 1
  | none => 0

/-- The parser state that matters to the `streaming` destination: the
explicit default installed by `set_defaults`, when any.  The
`--no-streaming` argument is a `store_false` action, whose implicit default
is `True` when the parser holds no explicit default. -/
structure ArgParser where
  streamingDefault : Option Bool
deriving DecidableEq

/-- The parsed namespace, restricted to the `streaming` destination. -/
structure PyNamespace where
  streaming : Bool
deriving DecidableEq

/-- `parser.parse_args(argv)` for the `streaming` destination: the namespace
starts from the parser's default (implicitly `True` for `store_false`), and
each occurrence of `--no-streaming` on the command line stores `False`. -/
def parse_args (p : ArgParser) (argv : List String) : PyNamespace :=
  { streaming :=
      argv.foldl (fun s tok => if tok = "--no-streaming" then false else s)
        (p.streamingDefault.getD true) }

/-- `parser.set_defaults(streaming=False)`: mutates the parser object only;
namespaces already returned by `parse_args` are untouched. -/
def set_defaults (p : ArgParser) (b : Bool) : ArgParser :=
  { p with streamingDefault := some b }

/-- The `__main__` block's handling of `streaming`: build the parser (no
explicit default), call `parse_args`, and only then call
`parser.set_defaults(streaming=False)`.  Returns the namespace passed to
`main` together with the final parser state. -/
def scriptParse (argv : List String) : PyNamespace × ArgParser :=
  let parser : ArgParser := ⟨none⟩
  let args := parse_args parser argv
  let parser := set_defaults parser false
  (args, parser)

/-- A concrete environment used by the witness theorems: a CTC model whose
decoder returns one empty transcription per input and whose batches take six
seconds of wall time. -/
def envW : Env :=
  { can_generate := false
    n_samples := 480000
    infer_decode := fun _ audios => audios.map (fun _ => "w")
    normalizer := fun s => s
    runtime := fun _ => 6 }

/-- A concrete three-sample batch used by the witness theorems. -/
def batchW : Batch :=
  { audio := [[0], [0], [0]], norm_text := ["a", "b", "c"] }

/-- A concrete two-sample prepared dataset used by the witness theorems. -/
def preparedW : List PreparedSample :=
  [⟨[0], "a", 2⟩, ⟨[0, 0], "b", 3⟩]

/-- A concrete WER oracle used by the witness theorems. -/
def werFnW : List String → List String → ℚ := fun _ _ => 0

/-- A concrete one-sample batch, used as surrounding context in the
batch-independence witness. -/
def batchX : Batch := { audio := [[1]], norm_text := ["x"] }

/-- A different concrete batch, used as alternative surrounding context in
the batch-independence witness. -/
def batchY : Batch := { audio := [[2], [3]], norm_text := ["y", "z"] }

/-- A concrete world whose config load raises, used by the witness of the
error-propagation theorem. -/
def worldBoom : World :=
  { load_config := .error "boom"
    load_model := .ok ()
    load_processor := .ok ()
    load_data := .ok []
    map_benchmark := fun _ => .ok []
    write_manifest := fun _ => .ok "m"
    wer_compute := fun _ _ => .ok 0 }

/-- A concrete world that succeeds on every library call but whose prepared
dataset is empty, used by the witness of the empty-dataset theorem. -/
def worldEmpty : World :=
  { load_config := .ok ()
    load_model := .ok ()
    load_processor := .ok ()
    load_data := .ok []
    map_benchmark := fun prep => .ok (runSamples envW 16 prep)
    write_manifest := fun _ => .ok "m"
    wer_compute := fun _ _ => .ok 0 }

/-! ### Helper lemmas -/

/-- The accumulation loop appends, so starting from any accumulator it
appends the per-field projections of the remaining rows. -/
theorem foldl_appendResult (samples : List SampleResult) (acc : AllResults) :
    samples.foldl appendResult acc =
      { audio_length_s := acc.audio_length_s ++ samples.map (·.audio_length_s),
        transcription_time_s :=
          acc.transcription_time_s ++ samples.map (·.transcription_time_s),
        predictions := acc.predictions ++ samples.map (·.predictions),
        references := acc.references ++ samples.map (·.references) } := by
  induction samples generalizing acc with
  | nil => simp
  | cons r rs ih => simp [ih, appendResult]

/-- `accumulate` produces exactly the four per-field projections of the
sample rows, in order. -/
theorem accumulate_eq (samples : List SampleResult) :
    accumulate samples =
      { audio_length_s := samples.map (·.audio_length_s),
        transcription_time_s := samples.map (·.transcription_time_s),
        predictions := samples.map (·.predictions),
        references := samples.map (·.references) } := by
  simp [accumulate, foldl_appendResult]

/-- Flattening the chunks of a list recovers the list. -/
theorem chunksAux_flatten {α : Type} (b : Nat) (hb : 0 < b) :
    ∀ (fuel : Nat) (l : List α), l.length ≤ fuel → (chunksAux b fuel l).flatten = l := by
  intro fuel
  induction fuel with
  | zero =>
    intro l hl
    cases l with
    | nil => simp [chunksAux]
    | cons x xs => simp at hl
  | succ n ih =>
    intro l hl
    cases l with
    | nil => simp [chunksAux]
    | cons x xs =>
      show ((x :: xs).take b :: chunksAux b n ((x :: xs).drop b)).flatten = x :: xs
      have hd : ((x :: xs).drop b).length ≤ n := by
        simp only [List.length_drop, List.length_cons] at *
        omega
      rw [List.flatten_cons, ih ((x :: xs).drop b) hd]
      exact List.take_append_drop b (x :: xs)

/-- Flattening the batches of the batched map recovers the dataset. -/
theorem chunks_flatten {α : Type} (b : Nat) (hb : 0 < b) (l : List α) :
    (chunks b l).flatten = l :=
  chunksAux_flatten b hb l.length l le_rfl

/-- Every batch fed to `benchmark` by the batched map is non-empty. -/
theorem chunksAux_ne_nil {α : Type} (b : Nat) (hb : 0 < b) :
    ∀ (fuel : Nat) (l : List α), ∀ c ∈ chunksAux b fuel l, c ≠ [] := by
  intro fuel
  induction fuel with
  | zero =>
    intro l c hc
    cases l with
    | nil => simp [chunksAux] at hc
    | cons x xs => simp [chunksAux] at hc
  | succ n ih =>
    intro l c hc
    cases l with
    | nil => simp [chunksAux] at hc
    | cons x xs =>
      have hc2 : c = (x :: xs).take b ∨ c ∈ chunksAux b n ((x :: xs).drop b) := by
        simpa [chunksAux] using hc
      rcases hc2 with rfl | hc2
      · obtain ⟨m, rfl⟩ : ∃ m, b = m + 1 := ⟨b - 1, by omega⟩
        simp [List.take_succ_cons]
      · exact ih _ _ hc2

/-- Every batch of the batched map is non-empty. -/
theorem chunks_ne_nil {α : Type} (b : Nat) (hb : 0 < b) (l : List α) :
    ∀ c ∈ chunks b l, c ≠ [] :=
  chunksAux_ne_nil b hb l.length l

/-- When the four column lists have equal length, `zip4` projects back to
each of them. -/
theorem zip4_proj :
    ∀ (as ts : List ℚ) (ps rs : List String),
      ts.length = as.length → ps.length = as.length → rs.length = as.length →
      (zip4 as ts ps rs).map (·.audio_length_s) = as ∧
      (zip4 as ts ps rs).map (·.transcription_time_s) = ts ∧
      (zip4 as ts ps rs).map (·.predictions) = ps ∧
      (zip4 as ts ps rs).map (·.references) = rs := by
  intro as
  induction as with
  | nil =>
    intro ts ps rs h1 h2 h3
    cases ts <;> cases ps <;> cases rs <;> simp_all [zip4]
  | cons a as ih =>
    intro ts ps rs h1 h2 h3
    cases ts with
    | nil => simp at h1
    | cons t ts =>
      cases ps with
      | nil => simp at h2
      | cons p ps =>
        cases rs with
        | nil => simp at h3
        | cons r rs =>
          obtain ⟨e1, e2, e3, e4⟩ :=
            ih ts ps rs (by simpa using h1) (by simpa using h2) (by simpa using h3)
          simp [zip4, e1, e2, e3, e4]

/-- The sum of the per-sample transcription times of a non-empty batch is
the measured batch runtime. -/
theorem benchmark_time_sum (env : Env) (batch : Batch) (h : batch.audio ≠ []) :
    (benchmark env batch).transcription_time_s.sum = env.runtime batch.audio := by
  have hn : (batch.audio.length : ℚ) ≠ 0 := by
    have hl : 0 < batch.audio.length := List.length_pos.mpr h
    exact_mod_cast Nat.pos_iff_ne_zero.mp hl
  simp only [benchmark, List.sum_replicate, nsmul_eq_mul]
  exact mul_div_cancel₀ _ hn

/-- Lengths of the three columns `benchmark` outputs, given that inference
and decoding return one transcription per batch element. -/
theorem benchmark_lengths (env : Env)
    (hlen : ∀ p as, (env.infer_decode p as).length = as.length) (c : List PreparedSample) :
    (benchmark env (toBatch c)).transcription_time_s.length =
      (c.map (·.audio_length_s)).length ∧
    (benchmark env (toBatch c)).predictions.length = (c.map (·.audio_length_s)).length ∧
    (benchmark env (toBatch c)).references.length = (c.map (·.audio_length_s)).length := by
  refine ⟨?_, ?_, ?_⟩ <;> simp [benchmark, toBatch, hlen]

/-- The rows of a mapped batch project back to the kept `audio_length_s`
column. -/
theorem batchSamples_audio (env : Env)
    (hlen : ∀ p as, (env.infer_decode p as).length = as.length) (c : List PreparedSample) :
    (batchSamples env c).map (·.audio_length_s) = c.map (·.audio_length_s) := by
  obtain ⟨h1, h2, h3⟩ := benchmark_lengths env hlen c
  exact (zip4_proj _ _ _ _ h1 h2 h3).1

/-- The rows of a mapped batch project back to the batch's transcription
times. -/
theorem batchSamples_time (env : Env)
    (hlen : ∀ p as, (env.infer_decode p as).length = as.length) (c : List PreparedSample) :
    (batchSamples env c).map (·.transcription_time_s) =
      (benchmark env (toBatch c)).transcription_time_s := by
  obtain ⟨h1, h2, h3⟩ := benchmark_lengths env hlen c
  exact (zip4_proj _ _ _ _ h1 h2 h3).2.1

/-- The rows of a mapped batch project back to the batch's predictions. -/
theorem batchSamples_pred (env : Env)
    (hlen : ∀ p as, (env.infer_decode p as).length = as.length) (c : List PreparedSample) :
    (batchSamples env c).map (·.predictions) = (benchmark env (toBatch c)).predictions := by
  obtain ⟨h1, h2, h3⟩ := benchmark_lengths env hlen c
  exact (zip4_proj _ _ _ _ h1 h2 h3).2.2.1

/-- The rows of a mapped batch project back to the batch's normalized
reference texts. -/
theorem batchSamples_refs (env : Env)
    (hlen : ∀ p as, (env.infer_decode p as).length = as.length) (c : List PreparedSample) :
    (batchSamples env c).map (·.references) = c.map (·.norm_text) := by
  obtain ⟨h1, h2, h3⟩ := benchmark_lengths env hlen c
  exact (zip4_proj _ _ _ _ h1 h2 h3).2.2.2

/-- The mapped dataset's `audio_length_s` column is the prepared dataset's,
in order. -/
theorem runSamples_audio (env : Env)
    (hlen : ∀ p as, (env.infer_decode p as).length = as.length) (b : Nat) (hb : 0 < b)
    (prepared : List PreparedSample) :
    (runSamples env b prepared).map (·.audio_length_s) =
      prepared.map (·.audio_length_s) := by
  unfold runSamples
  rw [List.map_flatMap]
  have he : (fun c => (batchSamples env c).map (·.audio_length_s)) =
      (fun c : List PreparedSample => c.map (·.audio_length_s)) :=
    funext fun c => batchSamples_audio env hlen c
  rw [he, List.flatMap_def, ← List.map_flatten, chunks_flatten b hb]

/-- The mapped dataset's `references` column is the prepared dataset's
`norm_text` column, in order. -/
theorem runSamples_refs (env : Env)
    (hlen : ∀ p as, (env.infer_decode p as).length = as.length) (b : Nat) (hb : 0 < b)
    (prepared : List PreparedSample) :
    (runSamples env b prepared).map (·.references) = prepared.map (·.norm_text) := by
  unfold runSamples
  rw [List.map_flatMap]
  have he : (fun c => (batchSamples env c).map (·.references)) =
      (fun c : List PreparedSample => c.map (·.norm_text)) :=
    funext fun c => batchSamples_refs env hlen c
  rw [he, List.flatMap_def, ← List.map_flatten, chunks_flatten b hb]

/-- The mapped dataset's `transcription_time_s` column batch by batch. -/
theorem runSamples_time (env : Env)
    (hlen : ∀ p as, (env.infer_decode p as).length = as.length) (b : Nat)
    (prepared : List PreparedSample) :
    (runSamples env b prepared).map (·.transcription_time_s) =
      (chunks b prepared).flatMap
        (fun c => (benchmark env (toBatch c)).transcription_time_s) := by
  unfold runSamples
  rw [List.map_flatMap]
  exact congrArg _ (funext fun c => batchSamples_time env hlen c)

/-- The mapped dataset's `predictions` column batch by batch. -/
theorem runSamples_pred (env : Env)
    (hlen : ∀ p as, (env.infer_decode p as).length = as.length) (b : Nat)
    (prepared : List PreparedSample) :
    (runSamples env b prepared).map (·.predictions) =
      (chunks b prepared).flatMap (fun c => (benchmark env (toBatch c)).predictions) := by
  unfold runSamples
  rw [List.map_flatMap]
  exact congrArg _ (funext fun c => batchSamples_pred env hlen c)

/-- The mapped dataset has exactly one row per prepared sample. -/
theorem runSamples_length (env : Env)
    (hlen : ∀ p as, (env.infer_decode p as).length = as.length) (b : Nat) (hb : 0 < b)
    (prepared : List PreparedSample) :
    (runSamples env b prepared).length = prepared.length := by
  have h := congrArg List.length (runSamples_audio env hlen b hb prepared)
  simpa using h

/-- The total transcription time of a run is the sum of the measured batch
runtimes. -/
theorem runSamples_time_sum (env : Env)
    (hlen : ∀ p as, (env.infer_decode p as).length = as.length) (b : Nat) (hb : 0 < b)
    (prepared : List PreparedSample) :
    ((runSamples env b prepared).map (·.transcription_time_s)).sum =
      ((chunks b prepared).map (fun c => env.runtime (c.map (·.audio)))).sum := by
  rw [runSamples_time env hlen b prepared, List.flatMap_def, List.sum_flatten,
    List.map_map]
  refine congrArg List.sum (List.map_congr_left ?_)
  intro c hc
  have hcne : c ≠ [] := chunks_ne_nil b hb prepared c hc
  have hbatch : (toBatch c).audio ≠ [] := by
    simp [toBatch, hcne]
  simpa [toBatch] using benchmark_time_sum env (toBatch c) hbatch

/-- `bankersRound` at a fractional part below one half. -/
theorem bankersRound_eq_floor {x : ℚ} (h : x - ⌊x⌋ < 1 / 2) :
    bankersRound x = ⌊x⌋ := by
  unfold bankersRound
  rw [if_pos h]

/-- Python's `round` is weakly monotone. -/
theorem bankersRound_mono {x y : ℚ} (h : x ≤ y) : bankersRound x ≤ bankersRound y := by
  have hf : ⌊x⌋ ≤ ⌊y⌋ := Int.floor_le_floor h
  by_cases hxy : ⌊x⌋ = ⌊y⌋
  · have hr : x - ⌊y⌋ ≤ y - ⌊y⌋ := by
      rw [← hxy]
      have hx : (⌊x⌋ : ℚ) ≤ x := Int.floor_le x
      linarith
    unfold bankersRound
    rw [hxy]
    split_ifs <;> first | omega | linarith
  · have hlt : ⌊x⌋ + 1 ≤ ⌊y⌋ := by omega
    unfold bankersRound
    split_ifs <;> omega

/-- Python's `round(x, 2)` is weakly monotone. -/
theorem round2_mono {x y : ℚ} (h : x ≤ y) : round2 x ≤ round2 y := by
  have hm : bankersRound (x * 100) ≤ bankersRound (y * 100) :=
    bankersRound_mono (by linarith)
  have hc : ((bankersRound (x * 100) : ℤ) : ℚ) ≤ ((bankersRound (y * 100) : ℤ) : ℚ) :=
    Int.cast_le.mpr hm
  unfold round2
  linarith

/-- The folded `store_false` update: the result is the initial value unless
`--no-streaming` occurs somewhere in the argument list. -/
theorem foldl_store_false (argv : List String) (init : Bool) :
    argv.foldl (fun s tok => if tok = "--no-streaming" then false else s) init =
      (init && decide ("--no-streaming" ∉ argv)) := by
  induction argv generalizing init with
  | nil => simp
  | cons a as ih =>
    rw [List.foldl_cons]
    by_cases h : a = "--no-streaming"
    · subst h
      rw [if_pos rfl, ih false]
      simp
    · rw [if_neg h, ih init]
      have hne : ("--no-streaming" : String) ≠ a := fun he => h he.symm
      simp [List.mem_cons, hne]

/-- Every run of `main` ends in one of three shapes: aborted before any
output, aborted after writing and reporting the manifest, or completed with
the summary printed. -/
theorem mainRun_cases (w : World) :
    (∃ e, mainRun w = ([], some e)) ∨
    (∃ p e, mainRun w = ([Effect.wroteManifest p, Effect.printedPath p], some e)) ∨
    (∃ p wer rtfx, mainRun w =
      ([Effect.wroteManifest p, Effect.printedPath p, Effect.printedSummary wer rtfx],
        none)) := by
  cases hc1 : w.load_config with
  | error e => exact Or.inl ⟨e, by simp [mainRun, hc1]⟩
  | ok u1 =>
    cases hc2 : w.load_model with
    | error e => exact Or.inl ⟨e, by simp [mainRun, hc1, hc2]⟩
    | ok u2 =>
      cases hc3 : w.load_processor with
      | error e => exact Or.inl ⟨e, by simp [mainRun, hc1, hc2, hc3]⟩
      | ok u3 =>
        cases hc4 : w.load_data with
        | error e => exact Or.inl ⟨e, by simp [mainRun, hc1, hc2, hc3, hc4]⟩
        | ok data =>
          cases hc5 : w.map_benchmark data with
          | error e => exact Or.inl ⟨e, by simp [mainRun, hc1, hc2, hc3, hc4, hc5]⟩
          | ok samples =>
            cases hc6 : w.write_manifest (accumulate samples) with
            | error e =>
              exact Or.inl ⟨e, by simp [mainRun, hc1, hc2, hc3, hc4, hc5, hc6]⟩
            | ok path =>
              cases hc7 : w.wer_compute (accumulate samples).references
                  (accumulate samples).predictions with
              | error e =>
                exact Or.inr (Or.inl ⟨path, e,
                  by simp [mainRun, hc1, hc2, hc3, hc4, hc5, hc6, hc7]⟩)
              | ok wer =>
                cases hc8 : pyDiv (accumulate samples).audio_length_s.sum
                    (accumulate samples).transcription_time_s.sum with
                | error e =>
                  exact Or.inr (Or.inl ⟨path, e,
                    by simp [mainRun, hc1, hc2, hc3, hc4, hc5, hc6, hc7, hc8]⟩)
                | ok q =>
                  exact Or.inr (Or.inr ⟨path, round2 (100 * wer), round2 q,
                    by simp [mainRun, hc1, hc2, hc3, hc4, hc5, hc6, hc7, hc8]⟩)

/-! ### Claim theorems -/

/-- C3: for every non-empty batch, `benchmark` divides the measured batch
runtime evenly across the batch's samples: the recorded
`transcription_time_s` column is `minibatch_size` copies of
`runtime / minibatch_size`, so every entry equals the runtime divided by the
batch size, there is one entry per sample, and the entries sum to the batch
runtime. -/
theorem benchmark_divides_runtime_evenly (env : Env) (batch : Batch)
    (h : batch.audio ≠ []) :
    (benchmark env batch).transcription_time_s =
      List.replicate batch.audio.length
        (env.runtime batch.audio / (batch.audio.length : ℚ)) ∧
    (∀ t ∈ (benchmark env batch).transcription_time_s,
      t = env.runtime batch.audio / (batch.audio.length : ℚ)) ∧
    (benchmark env batch).transcription_time_s.length = batch.audio.length ∧
    (benchmark env batch).transcription_time_s.sum = env.runtime batch.audio := by
  refine ⟨rfl, ?_, by simp [benchmark], benchmark_time_sum env batch h⟩
  intro t ht
  exact List.eq_of_mem_replicate ht

/-- Witness for C3 at a concrete three-sample batch with a six-second
runtime. -/
theorem benchmark_divides_runtime_evenly_witness :
    batchW.audio ≠ [] ∧
    (benchmark envW batchW).transcription_time_s.sum = envW.runtime batchW.audio := by
  have h : batchW.audio ≠ [] := by simp [batchW]
  exact ⟨h, (benchmark_divides_runtime_evenly envW batchW h).2.2.2⟩

/-- C4 counterexample: for a generative model, a batch whose second sample
is long-form (length 4 > `n_samples` = 2) but whose first sample is not is
sent down the standard fixed-length path, although the batch does contain a
long-form sample — the branch inspects only `audios[0]`. -/
theorem choosePrePath_ignores_later_samples :
    choosePrePath true 2 [[1], [1, 2, 3, 4]] = PrePath.fixed30LogMel ∧
    ∃ a ∈ ([[1], [1, 2, 3, 4]] : List Audio), 2 < a.length := by
  refine ⟨rfl, [1, 2, 3, 4], List.mem_cons_of_mem _ (List.mem_singleton.mpr rfl), ?_⟩
  simp

/-- C4 (amended): non-generative (CTC) models always take the
raw-normalization path, whose processor call passes `truncation=False`,
`padding="longest"`, `return_attention_mask=True`; generative models take
the long-form path exactly when the batch's FIRST sample's audio exceeds
the feature extractor's fixed sample count, and otherwise the standard
30-second log-mel path. -/
theorem choosePrePath_first_sample_rule (g : Bool) (ns : Nat) (audios : List Audio) :
    (g = false → choosePrePath g ns audios = PrePath.rawLongest) ∧
    (g = true → (choosePrePath g ns audios = PrePath.rawLongest ↔
      ns < (audios.headD []).length)) ∧
    kwargsOf (choosePrePath false ns audios) =
      { truncation := false, padding := "longest", return_attention_mask := true } := by
  refine ⟨?_, ?_, ?_⟩
  · rintro rfl
    simp [choosePrePath]
  · rintro rfl
    unfold choosePrePath
    by_cases h : (audios.headD []).length > ns
    · simp [h]
    · simp [h]
  · simp [choosePrePath, kwargsOf]

/-- Witness for C4 (amended) at concrete inputs: a CTC model takes the raw
path, and a generative model with a long-form first sample satisfies the
first-sample rule. -/
theorem choosePrePath_first_sample_rule_witness :
    choosePrePath false 0 ([] : List Audio) = PrePath.rawLongest ∧
    (choosePrePath true 0 [[1]] = PrePath.rawLongest ↔
      0 < (([[1]] : List Audio).headD []).length) :=
  ⟨(choosePrePath_first_sample_rule false 0 []).1 rfl,
    (choosePrePath_first_sample_rule true 0 [[1]]).2.1 rfl⟩

/-- C5 counterexample: supplying the cap `--max_eval_samples 0` does NOT
truncate the dataset to its first 0 samples — the guard
`args.max_eval_samples > 0` skips the `take`, so the full dataset is
evaluated. -/
theorem subsample_zero_cap_not_applied :
    subsample (some 0) ["a"] = ["a"] ∧
    (["a"] : List String).take (Int.toNat 0) = [] ∧
    subsample (some 0) ["a"] ≠ (["a"] : List String).take (Int.toNat 0) := by
  refine ⟨rfl, rfl, ?_⟩
  simp [subsample]

/-- C5 (amended): when a POSITIVE sample cap is supplied the dataset is
truncated to its first `max_eval_samples` samples before evaluation; when no
cap is supplied, or a non-positive cap is supplied, the full dataset is
evaluated. -/
theorem subsample_positive_cap_rule {α : Type} (ds : List α) (n : Int) :
    subsample none ds = ds ∧
    (0 < n → subsample (some n) ds = ds.take n.toNat) ∧
    (n ≤ 0 → subsample (some n) ds = ds) := by
  refine ⟨rfl, ?_, ?_⟩
  · intro h
    simp [subsample, h]
  · intro h
    simp [subsample]
    intro h2
    omega

/-- Witness for C5 (amended) at a concrete positive cap. -/
theorem subsample_positive_cap_rule_witness :
    (0 : Int) < 1 ∧
    subsample (some 1) ["a", "b"] = (["a", "b"] : List String).take (Int.toNat 1) :=
  ⟨by norm_num, (subsample_positive_cap_rule ["a", "b"] 1).2.1 (by norm_num)⟩

/-- C2: for every completed run, the four accumulated result lists have
equal length with exactly one entry per evaluated sample; each list is the
per-field projection of the single ordered list of per-sample rows, so entry
`i` of each list belongs to the same row, and the `audio_length_s` and
`references` entries at index `i` are exactly those of the `i`-th prepared
sample, in dataset iteration order. -/
theorem all_results_parallel_aligned (env : Env) (b : Nat)
    (hlen : ∀ p as, (env.infer_decode p as).length = as.length) (hb : 0 < b)
    (prepared : List PreparedSample) :
    (runSamples env b prepared).length = prepared.length ∧
    (accumulate (runSamples env b prepared)).audio_length_s =
      prepared.map (·.audio_length_s) ∧
    (accumulate (runSamples env b prepared)).transcription_time_s =
      (runSamples env b prepared).map (·.transcription_time_s) ∧
    (accumulate (runSamples env b prepared)).predictions =
      (runSamples env b prepared).map (·.predictions) ∧
    (accumulate (runSamples env b prepared)).references =
      prepared.map (·.norm_text) ∧
    ((accumulate (runSamples env b prepared)).audio_length_s.length = prepared.length ∧
      (accumulate (runSamples env b prepared)).transcription_time_s.length =
        prepared.length ∧
      (accumulate (runSamples env b prepared)).predictions.length = prepared.length ∧
      (accumulate (runSamples env b prepared)).references.length = prepared.length) ∧
    ∀ (i : Nat) (h : i < prepared.length),
      (accumulate (runSamples env b prepared)).audio_length_s[i]? =
        some (prepared.get ⟨i, h⟩).audio_length_s ∧
      (accumulate (runSamples env b prepared)).references[i]? =
        some (prepared.get ⟨i, h⟩).norm_text := by
  have hacc := accumulate_eq (runSamples env b prepared)
  have ha := runSamples_audio env hlen b hb prepared
  have hr := runSamples_refs env hlen b hb prepared
  have hl := runSamples_length env hlen b hb prepared
  refine ⟨hl, ?_, ?_, ?_, ?_, ⟨?_, ?_, ?_, ?_⟩, ?_⟩
  · rw [hacc]
    exact ha
  · rw [hacc]
  · rw [hacc]
  · rw [hacc]
    exact hr
  · rw [hacc]
    simpa using congrArg List.length ha
  · rw [hacc]
    simpa using hl
  · rw [hacc]
    simpa using hl
  · rw [hacc]
    simpa using congrArg List.length hr
  · intro i h
    rw [hacc]
    show ((runSamples env b prepared).map (·.audio_length_s))[i]? = _ ∧
      ((runSamples env b prepared).map (·.references))[i]? = _
    rw [ha, hr]
    constructor <;>
      simp [List.getElem?_map, List.getElem?_eq_getElem h, List.get_eq_getElem]

/-- Witness for C2 at a concrete CTC environment and two-sample dataset. -/
theorem all_results_parallel_aligned_witness :
    (∀ p as, (envW.infer_decode p as).length = as.length) ∧ (0 < 16) ∧
    (runSamples envW 16 preparedW).length = preparedW.length := by
  have hlen : ∀ p as, (envW.infer_decode p as).length = as.length := by
    intro p as
    simp [envW]
  exact ⟨hlen, by norm_num,
    (all_results_parallel_aligned envW 16 hlen (by norm_num) preparedW).1⟩

/-- C1: after all samples are consumed, the reported WER is
`round(100 * wer, 2)` of a single WER computation over the full collected
prediction and reference lists of the whole run, and the reported RTFx is
`round(total audio duration / total transcription time, 2)`, where the total
transcription time is the sum of all per-batch runtimes — both metrics are
computed over the whole run, not per batch. -/
theorem metrics_computed_over_full_run (env : Env)
    (werFn : List String → List String → ℚ) (b : Nat) (prepared : List PreparedSample)
    (hlen : ∀ p as, (env.infer_decode p as).length = as.length) (hb : 0 < b)
    (ht : ((chunks b prepared).map (fun c => env.runtime (c.map (·.audio)))).sum ≠ 0) :
    runMetrics env werFn b prepared = .ok
      (round2 (100 * werFn (prepared.map (·.norm_text))
        ((chunks b prepared).flatMap (fun c => (benchmark env (toBatch c)).predictions))),
       round2 ((prepared.map (·.audio_length_s)).sum /
        ((chunks b prepared).map (fun c => env.runtime (c.map (·.audio)))).sum)) := by
  simp only [runMetrics, computeMetrics, accumulate_eq,
    runSamples_refs env hlen b hb, runSamples_pred env hlen b,
    runSamples_audio env hlen b hb, runSamples_time_sum env hlen b hb,
    pyDiv, if_neg ht, Except.map]

/-- Witness for C1 at a concrete environment, dataset and WER oracle. -/
theorem metrics_computed_over_full_run_witness :
    (∀ p as, (envW.infer_decode p as).length = as.length) ∧ (0 < 16) ∧
    ((chunks 16 preparedW).map (fun c => envW.runtime (c.map (·.audio)))).sum ≠ 0 ∧
    ∃ out, runMetrics envW werFnW 16 preparedW = Except.ok out := by
  have hlen : ∀ p as, (envW.infer_decode p as).length = as.length := by
    intro p as
    simp [envW]
  have ht : ((chunks 16 preparedW).map (fun c => envW.runtime (c.map (·.audio)))).sum ≠ 0 := by
    norm_num [chunks, chunksAux, preparedW, envW]
  exact ⟨hlen, by norm_num, ht,
    ⟨_, metrics_computed_over_full_run envW werFnW 16 preparedW hlen (by norm_num) ht⟩⟩

/-- C6: `benchmark`'s recorded results for a batch depend only on that
batch's inputs: in any two runs whose batch lists agree at position `i`, the
mapped results agree at position `i`, whatever the other batches are —
there is no state carried between batches. -/
theorem benchmark_independent_of_other_batches (env : Env) (bs1 bs2 : List Batch)
    (i : Nat) (h1 : i < bs1.length) (h2 : i < bs2.length)
    (heq : bs1.get ⟨i, h1⟩ = bs2.get ⟨i, h2⟩) :
    (bs1.map (benchmark env)).get ⟨i, by simpa using h1⟩ =
      (bs2.map (benchmark env)).get ⟨i, by simpa using h2⟩ := by
  simp only [List.get_eq_getElem, List.getElem_map]
  simp only [List.get_eq_getElem] at heq
  rw [heq]

/-- Witness for C6: two runs sharing their first batch but differing in the
second record identical results for the first batch. -/
theorem benchmark_independent_of_other_batches_witness :
    ([batchW, batchX].map (benchmark envW)).get ⟨0, by simp⟩ =
      ([batchW, batchY].map (benchmark envW)).get ⟨0, by simp⟩ :=
  benchmark_independent_of_other_batches envW [batchW, batchX] [batchW, batchY] 0
    (by simp) (by simp) rfl

/-- C7: `main` installs no exception handler — whichever library call
raises first, the exception propagates out of `main` unchanged, the process
exits non-zero, a summary line is printed only on fully successful runs, and
failures occurring before manifest writing produce no manifest. -/
theorem main_propagates_exceptions (w : World) :
    (∀ e, w.load_config = .error e → mainRun w = ([], some e)) ∧
    (∀ e, w.load_config = .ok () → w.load_model = .error e →
      mainRun w = ([], some e)) ∧
    (∀ e, w.load_config = .ok () → w.load_model = .ok () →
      w.load_processor = .error e → mainRun w = ([], some e)) ∧
    (∀ e, w.load_config = .ok () → w.load_model = .ok () →
      w.load_processor = .ok () → w.load_data = .error e →
      mainRun w = ([], some e)) ∧
    (∀ e data, w.load_config = .ok () → w.load_model = .ok () →
      w.load_processor = .ok () → w.load_data = .ok data →
      w.map_benchmark data = .error e → mainRun w = ([], some e)) ∧
    (∀ e data samples, w.load_config = .ok () → w.load_model = .ok () →
      w.load_processor = .ok () → w.load_data = .ok data →
      w.map_benchmark data = .ok samples →
      w.write_manifest (accumulate samples) = .error e →
      mainRun w = ([], some e)) ∧
    (∀ e data samples path, w.load_config = .ok () → w.load_model = .ok () →
      w.load_processor = .ok () → w.load_data = .ok data →
      w.map_benchmark data = .ok samples →
      w.write_manifest (accumulate samples) = .ok path →
      w.wer_compute (accumulate samples).references
        (accumulate samples).predictions = .error e →
      mainRun w = ([Effect.wroteManifest path, Effect.printedPath path], some e)) ∧
    (∀ wer rtfx, Effect.printedSummary wer rtfx ∈ (mainRun w).1 →
      (mainRun w).2 = none ∧ exit_code (mainRun w) = 0) ∧
    (∀ e, (mainRun w).2 = some e → exit_code (mainRun w) = 1) := by
  refine ⟨?_, ?_, ?_, ?_, ?_, ?_, ?_, ?_, ?_⟩
  · intro e h1
    simp [mainRun, h1]
  · intro e h1 h2
    simp [mainRun, h1, h2]
  · intro e h1 h2 h3
    simp [mainRun, h1, h2, h3]
  · intro e h1 h2 h3 h4
    simp [mainRun, h1, h2, h3, h4]
  · intro e data h1 h2 h3 h4 h5
    simp [mainRun, h1, h2, h3, h4, h5]
  · intro e data samples h1 h2 h3 h4 h5 h6
    simp [mainRun, h1, h2, h3, h4, h5, h6]
  · intro e data samples path h1 h2 h3 h4 h5 h6 h7
    simp [mainRun, h1, h2, h3, h4, h5, h6, h7]
  · intro wer rtfx hmem
    rcases mainRun_cases w with ⟨e, he⟩ | ⟨p, e, he⟩ | ⟨p, w2, r2, he⟩ <;>
      rw [he] at hmem ⊢ <;> simp_all [exit_code]
  · intro e he
    simp [exit_code, he]

/-- Witness for C7: a world whose config load raises `"boom"` aborts with
exactly that exception and produces no output. -/
theorem main_propagates_exceptions_witness :
    worldBoom.load_config = .error "boom" ∧ mainRun worldBoom = ([], some "boom") :=
  ⟨rfl, (main_propagates_exceptions worldBoom).1 "boom" rfl⟩

/-- C8 counterexample: with audio length 1 fixed, shrinking the
transcription time from 1 to 999/1000 strictly increases the raw ratio but
leaves the reported (two-decimal-rounded) RTFx unchanged at 1.00 — the
reported value is not strictly larger. -/
theorem rtfx_rounding_not_strict :
    (0 : ℚ) < 1 ∧ (0 : ℚ) < 999 / 1000 ∧ (999 / 1000 : ℚ) < 1 ∧
    round2 ((1 : ℚ) / (999 / 1000)) = round2 ((1 : ℚ) / 1) := by
  refine ⟨by norm_num, by norm_num, by norm_num, ?_⟩
  have e1 : (1 : ℚ) / (999 / 1000) = 1000 / 999 := by norm_num
  have e2 : (1 : ℚ) / 1 = 1 := by norm_num
  rw [e1, e2]
  unfold round2
  have f1 : ⌊(1000 / 999 : ℚ) * 100⌋ = 100 := by
    norm_num [Int.floor_eq_iff]
  have f2 : ⌊(1 : ℚ) * 100⌋ = 100 := by norm_num
  rw [bankersRound_eq_floor (by rw [f1]; norm_num),
    bankersRound_eq_floor (by rw [f2]; norm_num), f1, f2]

/-- C8 (amended): for a fixed positive total audio length, a strictly
smaller positive total transcription time gives a strictly larger raw RTFx
ratio, and a reported (two-decimal-rounded) RTFx at least as large — the
reported value is weakly, not strictly, monotone. -/
theorem rtfx_antitone_in_time (A t1 t2 : ℚ) (hA : 0 < A) (h1 : 0 < t1)
    (h12 : t1 < t2) :
    A / t2 < A / t1 ∧ round2 (A / t2) ≤ round2 (A / t1) := by
  have h2 : 0 < t2 := lt_trans h1 h12
  have hs : A / t2 < A / t1 := (div_lt_div_iff_of_pos_left hA h2 h1).mpr h12
  exact ⟨hs, round2_mono (le_of_lt hs)⟩

/-- Witness for C8 (amended) at audio length 1 and times 1 and 2. -/
theorem rtfx_antitone_in_time_witness :
    (0 : ℚ) < 1 ∧ (0 : ℚ) < 1 ∧ (1 : ℚ) < 2 ∧
    ((1 : ℚ) / 2 < 1 / 1 ∧ round2 ((1 : ℚ) / 2) ≤ round2 ((1 : ℚ) / 1)) :=
  ⟨by norm_num, by norm_num, by norm_num,
    rtfx_antitone_in_time 1 1 2 (by norm_num) (by norm_num) (by norm_num)⟩

/-- C9: after CLI parsing, `args.streaming` is `True` unless
`--no-streaming` was passed: the namespace handed to `main` is exactly the
one `parse_args` produced from the parser WITHOUT an explicit default (the
`store_false` implicit default `True` applies), and the
`parser.set_defaults(streaming=False)` call executed after `parse_args`
changes only the parser object. -/
theorem streaming_true_unless_flag (argv : List String) :
    ((scriptParse argv).1.streaming = true ↔ "--no-streaming" ∉ argv) ∧
    (scriptParse argv).1 = parse_args ⟨none⟩ argv ∧
    (scriptParse argv).2 = ⟨some false⟩ := by
  refine ⟨?_, rfl, rfl⟩
  show (parse_args ⟨none⟩ argv).streaming = true ↔ _
  unfold parse_args
  rw [show (ArgParser.mk none).streamingDefault.getD true = true from rfl]
  rw [foldl_store_false argv true]
  simp

/-- Witness for C9: an empty command line yields `streaming = True`, and
passing `--no-streaming` yields `streaming = False`. -/
theorem streaming_true_unless_flag_witness :
    (scriptParse []).1.streaming = true ∧
    ¬(scriptParse ["--no-streaming"]).1.streaming = true :=
  ⟨(streaming_true_unless_flag []).1.mpr (by simp),
    fun h => by
      have hmem := (streaming_true_unless_flag ["--no-streaming"]).1.mp h
      simp at hmem⟩

/-- C10: on a run whose prepared dataset yields zero samples, the mapped
dataset is empty, all four accumulated result lists are empty, and the RTFx
computation divides the zero total audio length by the zero total
transcription time, raising `ZeroDivisionError` after the manifest was
written and its path printed; the RTFx division returns a value only when the
total transcription time is non-zero, hence only when at least one sample
was processed. -/
theorem empty_dataset_division_fails (w : World) (p : String) (wv : ℚ) :
    (∀ (env : Env) (b : Nat), runSamples env b [] = []) ∧
    accumulate [] = ⟨[], [], [], []⟩ ∧
    pyDiv (0 : ℚ) 0 = .error "ZeroDivisionError" ∧
    (w.load_config = .ok () → w.load_model = .ok () → w.load_processor = .ok () →
      w.load_data = .ok [] → w.map_benchmark [] = .ok [] →
      w.write_manifest (accumulate []) = .ok p →
      w.wer_compute (accumulate []).references (accumulate []).predictions = .ok wv →
      mainRun w =
        ([Effect.wroteManifest p, Effect.printedPath p], some "ZeroDivisionError") ∧
      exit_code (mainRun w) = 1) ∧
    (∀ (samples : List SampleResult) (q : ℚ),
      pyDiv (accumulate samples).audio_length_s.sum
          (accumulate samples).transcription_time_s.sum = .ok q →
      (accumulate samples).transcription_time_s.sum ≠ 0 ∧ samples ≠ []) := by
  refine ⟨fun env b => rfl, rfl, by simp [pyDiv], ?_, ?_⟩
  · intro h1 h2 h3 h4 h5 h6 h7
    have h6n : w.write_manifest ⟨[], [], [], []⟩ = .ok p := h6
    have h7n : w.wer_compute [] [] = .ok wv := h7
    have hm : mainRun w =
        ([Effect.wroteManifest p, Effect.printedPath p], some "ZeroDivisionError") := by
      simp [mainRun, h1, h2, h3, h4, h5, h6n, h7n, accumulate, pyDiv]
    exact ⟨hm, by simp [exit_code, hm]⟩
  · intro samples q h
    have hne : (accumulate samples).transcription_time_s.sum ≠ 0 := by
      intro h0
      simp [pyDiv, h0] at h
    refine ⟨hne, ?_⟩
    rintro rfl
    exact hne (by simp [accumulate])

/-- Witness for C10: a concrete world whose dataset is empty and whose other
library calls all succeed aborts with `ZeroDivisionError` after writing and
reporting the manifest. -/
theorem empty_dataset_division_fails_witness :
    worldEmpty.load_data = .ok [] ∧
    mainRun worldEmpty =
      ([Effect.wroteManifest "m", Effect.printedPath "m"], some "ZeroDivisionError") :=
  ⟨rfl,
    ((empty_dataset_division_fails worldEmpty "m" 0).2.2.2.1
      rfl rfl rfl rfl rfl rfl rfl).1⟩

end RunEval
